import Mathlib

/-!
Shallow embedding of the audit orchestration server (src/server/index.js):
the engine-result conversion layer (runLighthouse, lines 110-133), the retry
policy (runLighthouseWithRetry, lines 150-180), median aggregation
(getMedianResult / runLighthouseWithMedian, lines 182-196), the result cache
and the POST /api/audit request handler (lines 198-266).

JavaScript numbers are modelled as exact rationals; the few places where a
value can be a non-number (undefined audits, NaN, truthy non-numeric values)
are modelled by the JVal type below.  Timestamps are integers (milliseconds).
-/

/-- A JavaScript value as it can appear in a numeric position:
a finite number, NaN, undefined (e.g. a missing audit, so that
`audits[k]?.numericValue` is undefined), or `str`, standing for a truthy
value with no numeric interpretation (coercing it to a number gives NaN). -/
inductive JVal where
  | num (q : ℚ)
  | nan
  | undef
  | str
deriving DecidableEq

/-- JavaScript truthiness of a `JVal`: a number is truthy iff nonzero,
NaN and undefined are falsy, a truthy non-numeric value is truthy. -/
def JVal.truthy : JVal → Bool
  | .num q => q ≠ 0
  | .str => true
  | _ => false

/-- Whether `typeof v` is the string "number".  NaN counts: its JavaScript
type is number. -/
def JVal.typeofNumber : JVal → Bool
  | .num _ => true
  | .nan => true
  | _ => false

/-- The JavaScript expression `v || 0`. -/
def jsOr0 (v : JVal) : JVal := if v.truthy then v else .num 0

/-- The JavaScript expression `v / d` for a nonzero number literal `d`:
a number divides exactly, everything else gives NaN. -/
def jsDivBy (v : JVal) (d : ℚ) : JVal :=
  match v with
  | .num q => .num (q / d)
  | _ => .nan

/-- JavaScript `Math.round` on a finite value: round half toward
positive infinity, i.e. the floor of `q + 1/2`.  Non-numbers give NaN. -/
def jround (q : ℚ) : ℤ := ⌊q + 1/2⌋

/-- `Math.round(v)` on a `JVal`. -/
def jsRound : JVal → JVal
  | .num q => .num (jround q)
  | _ => .nan

/-- The JavaScript `Number(v)` coercion on the values that can reach it
here: a number stays itself, NaN stays NaN, undefined gives NaN, and a
non-numeric truthy value gives NaN. -/
def jsNumber : JVal → JVal
  | .num q => .num q
  | _ => .nan

/-- The raw `numericValue` fields read from `lhr.audits` (lines 110-116);
undefined when the audit or its numericValue is missing. -/
structure RawAudits where
  firstContentfulPaint : JVal
  largestContentfulPaint : JVal
  totalBlockingTime : JVal
  cumulativeLayoutShift : JVal
  speedIndex : JVal
deriving DecidableEq

/-- The raw `score` fields read from `lhr.categories` (lines 128-131),
floats in [0,1]; `none` models an undefined or null score, which the
source folds to 0 with `|| 0`. -/
structure RawCategories where
  performance : Option ℚ
  accessibility : Option ℚ
  seo : Option ℚ
  bestPractices : Option ℚ
deriving DecidableEq

/-- The validation loop of lines 119-124: a metric whose value is not a
number, or is NaN, is coerced to 0; a number is kept. -/
def coerceMetric (v : JVal) : ℚ :=
  match v with
  | .num q => q
  | _ => 0

/-- The converted metric set of the response (seconds for the paint and
speed metrics, milliseconds rounded to an integer for totalBlockingTime,
unitless for cumulativeLayoutShift). -/
structure Metrics where
  firstContentfulPaint : ℚ
  largestContentfulPaint : ℚ
  totalBlockingTime : ℚ
  cumulativeLayoutShift : ℚ
  speedIndex : ℚ
deriving DecidableEq

/-- The converted audit result of lines 127-133. -/
structure AuditResult where
  performance : ℤ
  accessibility : ℤ
  seo : ℤ
  bestPractices : ℤ
  metrics : Metrics
deriving DecidableEq

/-- `Math.round((categories.x?.score || 0) * 100)` (lines 128-131). -/
def scoreOut (s : Option ℚ) : ℤ := jround (s.getD 0 * 100)

/-- The pure conversion performed by `runLighthouse` (lines 110-133) once
the engine has produced `lhr.categories` and `lhr.audits`.  The failure
modes of the surrounding code (launch failure, missing lhr, missing
categories or audits) throw and are modelled as the failing case of the
engine oracle fed to the retry layer below. -/
def runLighthouse (categories : RawCategories) (audits : RawAudits) : AuditResult :=
  { performance := scoreOut categories.performance
    accessibility := scoreOut categories.accessibility
    seo := scoreOut categories.seo
    bestPractices := scoreOut categories.bestPractices
    metrics :=
      { firstContentfulPaint := coerceMetric (jsDivBy (jsOr0 audits.firstContentfulPaint) 1000)
        largestContentfulPaint := coerceMetric (jsDivBy (jsOr0 audits.largestContentfulPaint) 1000)
        totalBlockingTime := coerceMetric (jsRound (jsOr0 audits.totalBlockingTime))
        cumulativeLayoutShift := coerceMetric (jsNumber (jsOr0 audits.cumulativeLayoutShift))
        speedIndex := coerceMetric (jsDivBy (jsOr0 audits.speedIndex) 1000) } }

/-- What one `runLighthouse` call can return, as seen by the defensive
check of lines 161-163: a falsy value, or an object carrying a
`performance` field (a `JVal`) together with the rest of the payload. -/
inductive LHVal where
  | nullish
  | obj (performance : JVal) (payload : AuditResult)
deriving DecidableEq

/-- The check `!result || typeof result.performance !== 'number'`
of line 161, as a validity predicate (true = passes the check). -/
def lhValid : LHVal → Bool
  | .nullish => false
  | .obj p _ => p.typeofNumber

/-- Outcome of one engine attempt: `runLighthouse` threw with the given
message, or returned the given value. -/
inductive AttemptRes where
  | fail (msg : String)
  | success (v : LHVal)

/-- Observable trace of `runLighthouseWithRetry`: the final outcome, the
number of attempts performed, and the list of backoff delays slept
(milliseconds, in order). -/
structure RetryTrace where
  result : Except String LHVal
  attempts : ℕ
  delays : List ℕ

/-- The backoff of lines 170-175, taken after attempt number `a` failed:
when attempts remain (`0 < n`) the loop sleeps `a * 2000` ms before the
continuation trace `t`, so that delay is recorded in front of `t`. -/
def retryStep (a n : ℕ) (t : RetryTrace) : RetryTrace :=
  if 0 < n then ⟨t.result, t.attempts, a * 2000 :: t.delays⟩ else t

/-- The while loop of `runLighthouseWithRetry` (lines 150-180).  The
structural argument `remaining` is `maxRetries - attempts`, so at fuel
`n+1` the attempt being performed is number `maxRetries - n`; the engine
oracle maps each attempt number (1-based) to its outcome.  After a failed
or invalid attempt, `retryStep` sleeps before the next attempt when
attempts remain.  When the fuel runs out the loop exits and line 179
throws the AuditFailed error built from the device tag, the attempt
count, and the last error message.  (In the source `lastError` is
undefined before the first attempt; it is dereferenced only with
`maxRetries` at least 1, so the initial value of `lastErr` is
unobservable there and is modelled as the empty string.) -/
def retryGo (device : String) (engine : ℕ → AttemptRes) (maxRetries : ℕ) :
    String → (remaining : ℕ) → RetryTrace
  | lastErr, 0 =>
    ⟨.error (device ++ " audit failed after " ++ toString maxRetries ++
        " attempts: " ++ lastErr), maxRetries, []⟩
  | _, n + 1 =>
    match engine (maxRetries - n) with
    | .success v =>
      if lhValid v then ⟨.ok v, maxRetries - n, []⟩
      else retryStep (maxRetries - n) n
        (retryGo device engine maxRetries "Invalid result structure" n)
    | .fail msg =>
      retryStep (maxRetries - n) n (retryGo device engine maxRetries msg n)

/-- `runLighthouseWithRetry(url, device, maxRetries = 3)`: the url is
absorbed into the engine oracle. -/
def runLighthouseWithRetry (device : String) (engine : ℕ → AttemptRes)
    (maxRetries : ℕ := 3) : RetryTrace :=
  retryGo device engine maxRetries "" maxRetries

/-- The comparator `(a, b) => b.performance - a.performance` of line 183,
as the order used by a stable sort (Array.prototype.sort is stable):
`a` may precede `b` iff `b.performance ≤ a.performance` (descending). -/
def perfDesc (a b : AuditResult) : Prop := b.performance ≤ a.performance

instance : DecidableRel perfDesc :=
  fun a b => inferInstanceAs (Decidable (b.performance ≤ a.performance))

/-- `getMedianResult` (lines 182-185): stably sort descending by
performance, return the element at index `floor(length / 2)` (none on an
empty list, where the source would yield undefined). -/
def getMedianResult (results : List AuditResult) : Option AuditResult :=
  let sorted := List.insertionSort perfDesc results
  sorted[sorted.length / 2]?

/-- The loop of `runLighthouseWithMedian` (lines 187-196): run `i` calls
`runLighthouse` directly (the engine oracle maps the 0-based run index to
its outcome); the first failure aborts the whole aggregation with that
error.  `acc` accumulates the successful results in order.  The structural
argument `remaining` is `runs - i`, so at fuel `m` the run index is
`runs - m`. -/
def runMedianGo (engine : ℕ → Except String AuditResult) (runs : ℕ) :
    (remaining : ℕ) → List AuditResult → Except String (Option AuditResult)
  | 0, acc => .ok (getMedianResult acc)
  | n + 1, acc =>
    match engine (runs - (n + 1)) with
    | .error e => .error e
    | .ok r => runMedianGo engine runs n (acc ++ [r])

/-- `runLighthouseWithMedian(url, device, runs = 3)`. -/
def runLighthouseWithMedian (engine : ℕ → Except String AuditResult)
    (runs : ℕ := 3) : Except String (Option AuditResult) :=
  runMedianGo engine runs runs []

/-- A cache entry as written at lines 249-252: the timestamp of the write
and the stored result. -/
structure CacheEntry where
  timestamp : ℤ
  data : LHVal
deriving DecidableEq

/-- The result cache (line 17), a JavaScript Map modelled as an
association list kept in insertion order. -/
abbrev Cache := List (String × CacheEntry)

/-- `cache.get(key)` (line 231). -/
def cacheGet (c : Cache) (k : String) : Option CacheEntry :=
  (c.find? (fun p => p.1 == k)).map Prod.snd

/-- `cache.set(key, entry)` (lines 249-252): Map.set updates the existing
entry in place when the key is present, otherwise appends a new one. -/
def cacheSet (c : Cache) (k : String) (e : CacheEntry) : Cache :=
  if c.any (fun p => p.1 == k) then
    c.map (fun p => if p.1 == k then (k, e) else p)
  else
    c ++ [(k, e)]

/-- `CACHE_DURATION = 1000 * 60 * 60` ms (line 18). -/
def CACHE_DURATION : ℤ := 1000 * 60 * 60

/-- The cache read of lines 231-235: the stored result when an entry
exists for the key and `now` minus its timestamp is strictly below the
TTL; otherwise nothing (the stale entry is not touched: the read is a
pure lookup and the handler below never removes entries). -/
def readFresh (c : Cache) (k : String) (now : ℤ) : Option LHVal :=
  match cacheGet c k with
  | some e => if now - e.timestamp < CACHE_DURATION then some e.data else none
  | none => none

/-- A parsed URL as produced by `new URL(url)`: the parts the handler
reads.  The parser itself is a platform facility, so the handler below is
parameterised over it. -/
structure PUrl where
  protocol : String
  href : String
deriving DecidableEq

/-- The request body `{url, device}`; a missing field is `none` (the
destructuring default of line 200 turns a missing device into "mobile"). -/
structure Req where
  url : Option String
  device : Option String
deriving DecidableEq

/-- A response body: a result (200) or an `{error, message}` object
(400 and 500). -/
inductive RBody where
  | result (v : LHVal)
  | failure (error : String) (message : String)
deriving DecidableEq

/-- Observable outcome of one handler execution: HTTP status, body, the
cache and the `isAuditRunning` flag after the handler finished, the number
of engine attempts performed, and whether the gate was acquired (line 241
reached). -/
structure HResult where
  status : ℕ
  body : RBody
  cache : Cache
  isAuditRunning : Bool
  engineCalls : ℕ
  acquiredGate : Bool
deriving DecidableEq

/-- The POST /api/audit handler (lines 198-266) for a single request, as
a state transformer over the cache and the `isAuditRunning` flag.
`parseUrl` embeds `new URL` (throwing is `none`); `engine` is the attempt
oracle fed to the retry layer (the source passes `validUrl.href` to it);
`nowGet` and `nowPut` are the values of `Date.now()` at the cache read
(line 233) and at the cache write (line 250).  The busy-wait of lines
237-239 can only terminate, in this single-request model, when the flag
is already false; a request arriving while the flag is true waits forever,
modelled as `none`.  On an engine error the catch of lines 258-265 clears
the flag and answers 500 with `error.message || 'Failed to run audit'`. -/
def handler (parseUrl : String → Option PUrl) (engine : ℕ → AttemptRes)
    (nowGet nowPut : ℤ) (req : Req) (c : Cache) (gate : Bool) : Option HResult :=
  match req.url with
  | none => some ⟨400, .failure "Validation Error" "URL is required", c, gate, 0, false⟩
  | some u =>
    if u = "" then
      some ⟨400, .failure "Validation Error" "URL is required", c, gate, 0, false⟩
    else
      match parseUrl u with
      | none =>
        some ⟨400, .failure "Validation Error"
          "Invalid URL format. Please include http:// or https://", c, gate, 0, false⟩
      | some validUrl =>
        if validUrl.protocol = "http:" ∨ validUrl.protocol = "https:" then
          let device := req.device.getD "mobile"
          if device = "mobile" ∨ device = "desktop" then
            let cacheKey := u ++ "-" ++ device
            match readFresh c cacheKey nowGet with
            | some d => some ⟨200, .result d, c, gate, 0, false⟩
            | none =>
              if gate then none
              else
                let t := runLighthouseWithRetry device engine 3
                match t.result with
                | .ok r =>
                  some ⟨200, .result r, cacheSet c cacheKey ⟨nowPut, r⟩,
                    false, t.attempts, true⟩
                | .error e =>
                  some ⟨500, .failure "Audit Error"
                    (if e = "" then "Failed to run audit" else e), c,
                    false, t.attempts, true⟩
          else
            some ⟨400, .failure "Validation Error"
              "Device must be either mobile or desktop", c, gate, 0, false⟩
        else
          some ⟨400, .failure "Validation Error"
            "Invalid URL format. Please include http:// or https://", c, gate, 0, false⟩

/-- Modelled from the spec: section 4.4 states that MedianAggregator.invoke
executes `runs` independent RetryPolicy-wrapped invocations, each retrying
up to MAX_ATTEMPTS = 3 per section 4.3.  The source function
`runLighthouseWithMedian` (lines 187-196) instead calls `runLighthouse`
directly; this retry step follows the wording of the spec so the two can
be compared.  The engine oracle maps a global invocation counter to the
outcome of that single engine invocation; the retry consumes up to
`attemptsLeft` consecutive invocations starting at `cursor` and returns
the outcome together with the next unused cursor. -/
def specRetryGo (engine : ℕ → Except String AuditResult) :
    (cursor attemptsLeft : ℕ) → String → (Except String AuditResult) × ℕ
  | cursor, 0, lastErr => (.error lastErr, cursor)
  | cursor, n + 1, _ =>
    match engine cursor with
    | .ok r => (.ok r, cursor + 1)
    | .error e => specRetryGo engine (cursor + 1) n e

/-- Modelled from the spec: the aggregation loop of section 4.4 with each
run RetryPolicy-wrapped (see `specRetryGo`); any run that exhausts its
retries fails the whole aggregation with that run's error. -/
def specMedianGo (engine : ℕ → Except String AuditResult) :
    (remaining cursor : ℕ) → List AuditResult → Except String (Option AuditResult)
  | 0, _, acc => .ok (getMedianResult acc)
  | m + 1, cursor, acc =>
    match specRetryGo engine cursor 3 "" with
    | (.ok r, c) => specMedianGo engine m c (acc ++ [r])
    | (.error e, _) => .error e

/-- Modelled from the spec: MedianAggregator.invoke with RetryPolicy-wrapped
runs, to be compared with the source `runLighthouseWithMedian`. -/
def runMedianSpec (engine : ℕ → Except String AuditResult)
    (runs : ℕ := 3) : Except String (Option AuditResult) :=
  specMedianGo engine runs 0 []

/-- An audit result with the given performance score and all other fields
zero, used for concrete instances. -/
def arP (p : ℤ) : AuditResult := ⟨p, 0, 0, 0, ⟨0, 0, 0, 0, 0⟩⟩

/-- An engine whose very first invocation fails and whose later
invocations all succeed. -/
def flakyEngine : ℕ → Except String AuditResult :=
  fun n => if n = 0 then .error "boom" else .ok (arP 90)

/-- An attempt oracle that always fails. -/
def boomEngine : ℕ → AttemptRes := fun _ => .fail "boom"

/-- An attempt oracle that always succeeds with a valid result. -/
def okEngine : ℕ → AttemptRes := fun _ => .success (.obj (.num 90) (arP 90))

/-- An attempt oracle whose first attempt reports success with an invalid
result (undefined performance) and whose later attempts return a valid
one. -/
def invalidThenOkEngine : ℕ → AttemptRes :=
  fun k => if k = 1 then .success (.obj .undef (arP 0))
           else .success (.obj (.num 50) (arP 50))

/-- A concrete URL parser oracle for witnesses: one https URL, one URL
with a non-http scheme, everything else fails to parse. -/
def parseUrlW : String → Option PUrl := fun s =>
  if s = "https://example.com" then some ⟨"https:", "https://example.com/"⟩
  else if s = "ftp://example.com" then some ⟨"ftp:", "ftp://example.com/"⟩
  else none

/-- A concrete cache entry written at time 100. -/
def entryW : CacheEntry := ⟨100, .obj (.num 90) (arP 90)⟩

/-- A concrete cache holding `entryW` for the mobile key of the witness
URL. -/
def cW : Cache := [("https://example.com-mobile", entryW)]

/-- The backoff wrapper does not change the outcome of the trace. -/
@[simp] theorem retryStep_result (a n : ℕ) (t : RetryTrace) :
    (retryStep a n t).result = t.result := by
  unfold retryStep; split <;> rfl

/-- The backoff wrapper does not change the attempt count of the trace. -/
@[simp] theorem retryStep_attempts (a n : ℕ) (t : RetryTrace) :
    (retryStep a n t).attempts = t.attempts := by
  unfold retryStep; split <;> rfl

/-- The retry loop consults the engine oracle only at the attempt numbers
it still has to perform: oracles that agree above `maxRetries - n` (and up
to `maxRetries`) give identical traces. -/
theorem retryGo_congr (device : String) (e1 e2 : ℕ → AttemptRes) (maxRetries : ℕ) :
    ∀ (n : ℕ) (lastErr : String), n ≤ maxRetries →
      (∀ k, maxRetries - n < k → k ≤ maxRetries → e1 k = e2 k) →
      retryGo device e1 maxRetries lastErr n = retryGo device e2 maxRetries lastErr n := by
  intro n
  induction n with
  | zero => intro lastErr _ _; rfl
  | succ m ih =>
    intro lastErr hle hagree
    have hk : e1 (maxRetries - m) = e2 (maxRetries - m) :=
      hagree _ (by omega) (by omega)
    have ihm : ∀ s, retryGo device e1 maxRetries s m = retryGo device e2 maxRetries s m :=
      fun s => ih s (by omega) (fun k h1 h2 => hagree k (by omega) h2)
    simp only [retryGo, hk, ihm]

/-- A result accepted by the retry loop always passes the defensive
validity check: an invalid value is never returned as a success. -/
theorem retryGo_ok_valid (device : String) (engine : ℕ → AttemptRes) (maxRetries : ℕ) :
    ∀ (n : ℕ) (lastErr : String) (w : LHVal),
      (retryGo device engine maxRetries lastErr n).result = .ok w → lhValid w = true := by
  intro n
  induction n with
  | zero => intro lastErr w h; simp [retryGo] at h
  | succ m ih =>
    intro lastErr w h
    rw [retryGo] at h
    cases he : engine (maxRetries - m) with
    | success v =>
      simp only [he] at h
      by_cases hv : lhValid v
      · simp only [hv, if_true] at h
        cases h
        exact hv
      · simp only [hv, Bool.false_eq_true, if_false, retryStep_result] at h
        exact ih _ w h
    | fail msg =>
      simp only [he, retryStep_result] at h
      exact ih _ w h

/-- With a positive retry budget, at least one attempt is always made. -/
theorem retryGo_attempts_pos (device : String) (engine : ℕ → AttemptRes) (maxRetries : ℕ) :
    ∀ (n : ℕ) (lastErr : String), 0 < maxRetries → n ≤ maxRetries →
      1 ≤ (retryGo device engine maxRetries lastErr n).attempts := by
  intro n
  induction n with
  | zero => intro lastErr hpos _; simpa [retryGo] using hpos
  | succ m ih =>
    intro lastErr hpos hle
    rw [retryGo]
    cases engine (maxRetries - m) with
    | success v =>
      by_cases hv : lhValid v
      · simp only [hv, if_true]; omega
      · simp only [hv, Bool.false_eq_true, if_false, retryStep_attempts]
        exact ih _ hpos (by omega)
    | fail msg =>
      simp only [retryStep_attempts]
      exact ih _ hpos (by omega)

/-- C2: when every engine invocation fails, runLighthouseWithRetry with
the default maxRetries = 3 makes exactly 3 attempts, sleeps
attemptNumber * 2000 ms after attempts 1 and 2 (2000 ms then 4000 ms) and
not after the last, and fails with an error message carrying the device
tag, the attempt count, and the message of the last underlying error. -/
theorem retry_exhaustion (device : String) (engine : ℕ → AttemptRes)
    (m1 m2 m3 : String)
    (h1 : engine 1 = .fail m1) (h2 : engine 2 = .fail m2)
    (h3 : engine 3 = .fail m3) :
    runLighthouseWithRetry device engine 3 =
      { result := .error (device ++ " audit failed after " ++ toString 3 ++
          " attempts: " ++ m3)
        attempts := 3
        delays := [2000, 4000] } := by
  have e1 : (3 : ℕ) - 2 = 1 := rfl
  have e2 : (3 : ℕ) - 1 = 2 := rfl
  have e3 : (3 : ℕ) - 0 = 3 := rfl
  simp only [runLighthouseWithRetry, retryGo, e1, e2, e3, h1, h2, h3, retryStep]
  norm_num

/-- Witness for C2 at a concrete engine: the trace has attempts 3, delays
2000 then 4000, and the fully evaluated AuditFailed message. -/
theorem retry_exhaustion_witness :
    (boomEngine 1 = .fail "boom" ∧ boomEngine 2 = .fail "boom" ∧
      boomEngine 3 = .fail "boom")
    ∧ runLighthouseWithRetry "mobile" boomEngine 3 =
        { result := .error "mobile audit failed after 3 attempts: boom"
          attempts := 3
          delays := [2000, 4000] } := by
  refine ⟨⟨rfl, rfl, rfl⟩, ?_⟩
  have h := retry_exhaustion "mobile" boomEngine "boom" "boom" "boom" rfl rfl rfl
  rw [h]
  rfl

/-- C8: inside the retry loop, an attempt whose engine call reports
success but returns a missing result or one whose performance field has
typeof other than number counts as a failure: the whole run behaves
exactly as if that attempt had thrown the error "Invalid result
structure" (first conjunct); when attempts remain, the backoff is slept
and another attempt is made (second conjunct); and an invalid value is
never what the retry returns as a success (third conjunct).  The attempt
under consideration is number `maxRetries - n`, reached with fuel
`n + 1`. -/
theorem retry_revalidates_success (device lastErr : String)
    (engine : ℕ → AttemptRes) (maxRetries n : ℕ) (v : LHVal)
    (hn : n < maxRetries)
    (hv : engine (maxRetries - n) = .success v)
    (hinv : lhValid v = false) :
    (retryGo device engine maxRetries lastErr (n + 1) =
        retryGo device
          (fun k => if k = maxRetries - n then .fail "Invalid result structure"
                    else engine k)
          maxRetries lastErr (n + 1))
    ∧ (0 < n →
        retryGo device engine maxRetries lastErr (n + 1) =
          { result := (retryGo device engine maxRetries
              "Invalid result structure" n).result
            attempts := (retryGo device engine maxRetries
              "Invalid result structure" n).attempts
            delays := (maxRetries - n) * 2000 ::
              (retryGo device engine maxRetries
                "Invalid result structure" n).delays })
    ∧ (∀ w, (retryGo device engine maxRetries lastErr (n + 1)).result = .ok w →
        lhValid w = true) := by
  have hcong : ∀ s, retryGo device engine maxRetries s n =
      retryGo device
        (fun k => if k = maxRetries - n then .fail "Invalid result structure"
                  else engine k) maxRetries s n := by
    intro s
    refine retryGo_congr device engine _ maxRetries n s (by omega) ?_
    intro k hk1 _
    rw [if_neg (by omega)]
  refine ⟨?_, ?_, ?_⟩
  · rw [retryGo, hv]
    conv_rhs => rw [retryGo]
    simp only [eq_self_iff_true, if_true, hinv, Bool.false_eq_true, if_false, hcong]
  · intro hn2
    rw [retryGo, hv]
    simp only [hinv, Bool.false_eq_true, if_false, retryStep, if_pos hn2]
  · exact fun w hw => retryGo_ok_valid device engine maxRetries (n + 1) lastErr w hw

/-- Witness for C8: with maxRetries = 3 and fuel 3 (so attempt number 1),
an engine whose first attempt succeeds with an undefined performance
field behaves exactly like one that throws on attempt 1, retries after
the 2000 ms backoff, and ends with the valid result of attempt 2. -/
theorem retry_revalidates_witness :
    (invalidThenOkEngine 1 = .success (.obj .undef (arP 0))
      ∧ lhValid (.obj .undef (arP 0)) = false ∧ 2 < 3)
    ∧ retryGo "mobile" invalidThenOkEngine 3 "" 3 =
        retryGo "mobile"
          (fun k => if k = 1 then AttemptRes.fail "Invalid result structure"
                    else invalidThenOkEngine k) 3 "" 3
    ∧ (retryGo "mobile" invalidThenOkEngine 3 "" 3).attempts = 2
    ∧ (retryGo "mobile" invalidThenOkEngine 3 "" 3).delays = [2000] := by
  refine ⟨⟨rfl, rfl, by omega⟩, ?_, by rfl, by rfl⟩
  exact (retry_revalidates_success "mobile" "" invalidThenOkEngine 3 2
    (.obj .undef (arP 0)) (by omega) rfl rfl).1

/-- A numeric raw milliseconds value comes out of the divide-by-1000
pipeline as seconds. -/
theorem coerce_div_num (q : ℚ) :
    coerceMetric (jsDivBy (jsOr0 (.num q)) 1000) = q / 1000 := by
  by_cases h : q = 0 <;>
    simp [jsOr0, JVal.truthy, jsDivBy, coerceMetric, h]

/-- A numeric raw milliseconds value comes out of the rounding pipeline
as its JavaScript rounding. -/
theorem coerce_round_num (q : ℚ) :
    coerceMetric (jsRound (jsOr0 (.num q))) = (jround q : ℚ) := by
  by_cases h : q = 0 <;>
    simp [jsOr0, JVal.truthy, jsRound, coerceMetric, h, jround]

/-- A numeric raw value passes through the Number coercion pipeline
unchanged. -/
theorem coerce_number_num (q : ℚ) :
    coerceMetric (jsNumber (jsOr0 (.num q))) = q := by
  by_cases h : q = 0 <;>
    simp [jsOr0, JVal.truthy, jsNumber, coerceMetric, h]

/-- A truthy non-numeric raw value is coerced to 0 by the post-conversion
validation, in each of the three pipelines. -/
theorem coerce_str_zero :
    coerceMetric (jsDivBy (jsOr0 .str) 1000) = 0
    ∧ coerceMetric (jsRound (jsOr0 .str)) = 0
    ∧ coerceMetric (jsNumber (jsOr0 .str)) = 0 := by
  refine ⟨?_, ?_, ?_⟩ <;> rfl

/-- C7: for numeric raw inputs the conversion layer scales each category
score with round(score * 100), divides firstContentfulPaint,
largestContentfulPaint and speedIndex by 1000 (milliseconds to seconds),
rounds totalBlockingTime to an integer, and passes cumulativeLayoutShift
through unscaled; and a raw metric that is non-numeric after conversion
is coerced to 0 instead of failing the audit. -/
theorem conversion_units_and_coercion (categories : RawCategories)
    (audits : RawAudits) (f l t cl s : ℚ)
    (hf : audits.firstContentfulPaint = .num f)
    (hl : audits.largestContentfulPaint = .num l)
    (ht : audits.totalBlockingTime = .num t)
    (hc : audits.cumulativeLayoutShift = .num cl)
    (hs : audits.speedIndex = .num s) :
    runLighthouse categories audits =
      { performance := jround (categories.performance.getD 0 * 100)
        accessibility := jround (categories.accessibility.getD 0 * 100)
        seo := jround (categories.seo.getD 0 * 100)
        bestPractices := jround (categories.bestPractices.getD 0 * 100)
        metrics :=
          { firstContentfulPaint := f / 1000
            largestContentfulPaint := l / 1000
            totalBlockingTime := (jround t : ℚ)
            cumulativeLayoutShift := cl
            speedIndex := s / 1000 } }
    ∧ ∀ bad : RawAudits,
        (bad.firstContentfulPaint = .str →
          (runLighthouse categories bad).metrics.firstContentfulPaint = 0)
        ∧ (bad.largestContentfulPaint = .str →
          (runLighthouse categories bad).metrics.largestContentfulPaint = 0)
        ∧ (bad.totalBlockingTime = .str →
          (runLighthouse categories bad).metrics.totalBlockingTime = 0)
        ∧ (bad.cumulativeLayoutShift = .str →
          (runLighthouse categories bad).metrics.cumulativeLayoutShift = 0)
        ∧ (bad.speedIndex = .str →
          (runLighthouse categories bad).metrics.speedIndex = 0) := by
  constructor
  · simp only [runLighthouse, hf, hl, ht, hc, hs, scoreOut,
      coerce_div_num, coerce_round_num, coerce_number_num]
  · intro bad
    refine ⟨fun hb => ?_, fun hb => ?_, fun hb => ?_, fun hb => ?_, fun hb => ?_⟩ <;>
      simp only [runLighthouse, hb] <;> exact coerce_str_zero.1

/-- Witness for C7: raw totalBlockingTime 123.7 ms yields 124, raw
firstContentfulPaint 1500 ms yields 1.5 s, and a raw performance score of
0.9 yields 90. -/
theorem conversion_units_witness :
    (runLighthouse ⟨some (9/10), some 1, none, some (1/2)⟩
        ⟨.num 1500, .num 2500, .num (1237/10), .num (1/10), .num 3000⟩).metrics.totalBlockingTime = 124
    ∧ (runLighthouse ⟨some (9/10), some 1, none, some (1/2)⟩
        ⟨.num 1500, .num 2500, .num (1237/10), .num (1/10), .num 3000⟩).metrics.firstContentfulPaint = 3/2
    ∧ (runLighthouse ⟨some (9/10), some 1, none, some (1/2)⟩
        ⟨.num 1500, .num 2500, .num (1237/10), .num (1/10), .num 3000⟩).performance = 90
    ∧ (runLighthouse ⟨some (9/10), some 1, none, some (1/2)⟩
        ⟨.num 1500, .num 2500, .num (1237/10), .num (1/10), .str⟩).metrics.speedIndex = 0 := by
  have h := conversion_units_and_coercion ⟨some (9/10), some 1, none, some (1/2)⟩
    ⟨.num 1500, .num 2500, .num (1237/10), .num (1/10), .num 3000⟩
    1500 2500 (1237/10) (1/10) 3000 rfl rfl rfl rfl rfl
  refine ⟨?_, ?_, ?_, ?_⟩
  · rw [h.1]; norm_num [jround]
  · rw [h.1]; norm_num
  · rw [h.1]; norm_num [jround]
  · exact (h.2 ⟨.num 1500, .num 2500, .num (1237/10), .num (1/10), .str⟩).2.2.2.2 rfl

/-- C3: on a non-empty list of audit results, getMedianResult returns the
element at index floor(length / 2) of a descending-by-performance sorted
permutation of the input, never an averaged value. -/
theorem median_sorted_index (l : List AuditResult) (h : l ≠ []) :
    ∃ s : List AuditResult, s.Perm l ∧ s.Sorted perfDesc ∧
      ∃ hlt : l.length / 2 < s.length,
        getMedianResult l = some (s.get ⟨l.length / 2, hlt⟩) := by
  haveI htot : IsTotal AuditResult perfDesc :=
    ⟨fun a b => le_total b.performance a.performance⟩
  haveI htr : IsTrans AuditResult perfDesc :=
    ⟨fun a b c hab hbc => le_trans hbc hab⟩
  have hperm := List.perm_insertionSort perfDesc l
  have hlen : (List.insertionSort perfDesc l).length = l.length := hperm.length_eq
  have hpos : 0 < l.length := List.length_pos.mpr h
  have hlt : l.length / 2 < (List.insertionSort perfDesc l).length := by
    rw [hlen]; exact Nat.div_lt_self hpos (by norm_num)
  refine ⟨List.insertionSort perfDesc l, hperm,
    List.sorted_insertionSort perfDesc l, hlt, ?_⟩
  simp only [getMedianResult, hlen]
  exact List.getElem?_eq_getElem hlt

/-- Witness for C3: scores [90, 70, 80] select the run scoring 80
(sorted descending [90, 80, 70], index floor(3/2) = 1), and an
even-length list [90, 70, 80, 60] selects the lower-middle run scoring
70 (sorted [90, 80, 70, 60], index floor(4/2) = 2). -/
theorem median_sorted_index_witness :
    ([arP 90, arP 70, arP 80] ≠ ([] : List AuditResult))
    ∧ (∃ s : List AuditResult, s.Perm [arP 90, arP 70, arP 80] ∧
        s.Sorted perfDesc ∧
        ∃ hlt : [arP 90, arP 70, arP 80].length / 2 < s.length,
          getMedianResult [arP 90, arP 70, arP 80] =
            some (s.get ⟨[arP 90, arP 70, arP 80].length / 2, hlt⟩))
    ∧ getMedianResult [arP 90, arP 70, arP 80] = some (arP 80)
    ∧ getMedianResult [arP 90, arP 70, arP 80, arP 60] = some (arP 70) := by
  refine ⟨by simp, median_sorted_index [arP 90, arP 70, arP 80] (by simp), ?_, ?_⟩
  · decide
  · decide

/-- The aggregation loop consults the engine oracle only at the run
indices it still has to perform. -/
theorem runMedianGo_congr (e1 e2 : ℕ → Except String AuditResult) (runs : ℕ) :
    ∀ (n : ℕ) (acc : List AuditResult), n ≤ runs →
      (∀ j, runs - n ≤ j → j < runs → e1 j = e2 j) →
      runMedianGo e1 runs n acc = runMedianGo e2 runs n acc := by
  intro n
  induction n with
  | zero => intro acc _ _; rfl
  | succ m ih =>
    intro acc hle hagree
    have hi : e1 (runs - (m + 1)) = e2 (runs - (m + 1)) :=
      hagree _ (by omega) (by omega)
    have ihm : ∀ a, runMedianGo e1 runs m a = runMedianGo e2 runs m a :=
      fun a => ih a (by omega) (fun j h1 h2 => hagree j (by omega) h2)
    simp only [runMedianGo, hi, ihm]

/-- When every remaining run succeeds, the loop performs them all in
order and returns the median of the accumulated results. -/
theorem runMedianGo_ok (engine : ℕ → Except String AuditResult) (runs : ℕ)
    (r : ℕ → AuditResult) :
    ∀ (n : ℕ) (acc : List AuditResult), n ≤ runs →
      (∀ j, runs - n ≤ j → j < runs → engine j = .ok (r j)) →
      runMedianGo engine runs n acc =
        .ok (getMedianResult (acc ++ (List.range' (runs - n) n).map r)) := by
  intro n
  induction n with
  | zero => intro acc _ _; simp [runMedianGo]
  | succ m ih =>
    intro acc hle hok
    have hi : engine (runs - (m + 1)) = .ok (r (runs - (m + 1))) :=
      hok _ (by omega) (by omega)
    have hsucc : runs - (m + 1) + 1 = runs - m := by omega
    simp only [runMedianGo, hi]
    rw [ih (acc ++ [r (runs - (m + 1))]) (by omega)
      (fun j h1 h2 => hok j (by omega) h2)]
    rw [List.range'_succ, hsucc]
    simp

/-- The first failing run aborts the whole aggregation with that run's
error. -/
theorem runMedianGo_fail (engine : ℕ → Except String AuditResult) (runs : ℕ)
    (r : ℕ → AuditResult) (e : String) (k : ℕ) :
    ∀ (n : ℕ) (acc : List AuditResult), n ≤ runs → runs - n ≤ k → k < runs →
      (∀ j, runs - n ≤ j → j < k → engine j = .ok (r j)) →
      engine k = .error e →
      runMedianGo engine runs n acc = .error e := by
  intro n
  induction n with
  | zero => intro acc _ h1 h2 _ _; omega
  | succ m ih =>
    intro acc hle hk1 hk2 hok hke
    by_cases hik : runs - (m + 1) = k
    · simp only [runMedianGo, hik, hke]
    · have hi : engine (runs - (m + 1)) = .ok (r (runs - (m + 1))) :=
        hok _ (by omega) (by omega)
      simp only [runMedianGo, hi]
      exact ih (acc ++ [r (runs - (m + 1))]) (by omega) (by omega) hk2
        (fun j h1 h2 => hok j (by omega) h2) hke

/-- C1 (amended): runLighthouseWithMedian performs its `runs` engine runs
sequentially as direct runLighthouse invocations, with no per-run retry:
when all runs succeed it returns the median of their results (first
conjunct), it consults the engine at exactly the run indices 0..runs-1
(second conjunct), and the first failing run makes the whole aggregation
fail with that run's error and no partial result (third conjunct). -/
theorem median_direct_engine_runs (engine engine2 : ℕ → Except String AuditResult)
    (runs : ℕ) (r : ℕ → AuditResult) (e : String) (k : ℕ) :
    ((∀ i, i < runs → engine i = .ok (r i)) →
        runLighthouseWithMedian engine runs =
          .ok (getMedianResult ((List.range runs).map r)))
    ∧ ((∀ i, i < runs → engine i = engine2 i) →
        runLighthouseWithMedian engine runs = runLighthouseWithMedian engine2 runs)
    ∧ (k < runs → (∀ i, i < k → engine i = .ok (r i)) → engine k = .error e →
        runLighthouseWithMedian engine runs = .error e) := by
  refine ⟨fun hok => ?_, fun hag => ?_, fun hk hok hke => ?_⟩
  · rw [runLighthouseWithMedian,
      runMedianGo_ok engine runs r runs [] le_rfl
        (fun j h1 h2 => hok j h2)]
    simp [List.range_eq_range']
  · exact runMedianGo_congr engine engine2 runs runs [] le_rfl
      (fun j h1 h2 => hag j h2)
  · exact runMedianGo_fail engine runs r e k runs [] le_rfl (by omega) hk
      (fun j h1 h2 => hok j h2) hke

/-- Witness for C1 (amended): an all-success engine yields the median of
its three results, and an engine whose first run fails aborts the whole
aggregation with that error. -/
theorem median_direct_engine_runs_witness :
    ((∀ i, i < 3 → (fun _ => (Except.ok (arP 90) : Except String AuditResult)) i = .ok (arP 90))
      ∧ (0 : ℕ) < 3 ∧ flakyEngine 0 = .error "boom")
    ∧ runLighthouseWithMedian (fun _ => .ok (arP 90)) 3 =
        .ok (getMedianResult ((List.range 3).map (fun _ => arP 90)))
    ∧ runLighthouseWithMedian flakyEngine 3 = .error "boom" := by
  refine ⟨⟨fun i _ => rfl, by omega, rfl⟩, ?_, ?_⟩
  · exact (median_direct_engine_runs (fun _ => .ok (arP 90)) (fun _ => .ok (arP 90))
      3 (fun _ => arP 90) "" 0).1 (fun i _ => rfl)
  · exact (median_direct_engine_runs flakyEngine flakyEngine 3 (fun _ => arP 90)
      "boom" 0).2.2 (by omega) (fun i hi => absurd hi (by omega)) rfl

/-- Counterexample for C1 as stated: the n runs of runLighthouseWithMedian
are not RetryPolicy-wrapped.  With an engine whose first invocation fails
and all later ones succeed, the source aggregator fails outright with the
first error, while the spec-modelled retry-wrapped aggregator
(runMedianSpec) recovers and succeeds. -/
theorem median_not_retry_wrapped :
    runLighthouseWithMedian flakyEngine 3 = .error "boom"
    ∧ runMedianSpec flakyEngine 3 = .ok (some (arP 90))
    ∧ (Except.error "boom" : Except String (Option AuditResult)) ≠ .ok (some (arP 90)) :=
  ⟨rfl, rfl, fun h => by cases h⟩


/-- Unfolding a cache read over a cons cell. -/
theorem cacheGet_cons (x : String × CacheEntry) (t : Cache) (k : String) :
    cacheGet (x :: t) k = if x.1 == k then some x.2 else cacheGet t k := by
  simp only [cacheGet, List.find?]
  cases hx : x.1 == k <;> simp [cacheGet]

/-- Updating the entry for key `k` in place does not change what any
other key maps to. -/
theorem cacheGet_map_update_ne (t : Cache) (k : String) (e : CacheEntry)
    (k2 : String) (h : k2 ≠ k) :
    cacheGet (t.map (fun q => if q.1 == k then (k, e) else q)) k2 = cacheGet t k2 := by
  have hk : (k == k2) = false := beq_eq_false_iff_ne.mpr (Ne.symm h)
  induction t with
  | nil => rfl
  | cons q t ih =>
    rw [List.map_cons, cacheGet_cons, cacheGet_cons]
    by_cases hq : q.1 = k
    · have h2 : (q.1 == k2) = false := by
        rw [hq]; exact hk
      simp only [if_pos (beq_iff_eq.mpr hq), hk, h2, Bool.false_eq_true, if_false]
      exact ih
    · have hq' : (q.1 == k) = false := beq_eq_false_iff_ne.mpr hq
      simp only [hq', Bool.false_eq_true, if_false]
      cases hq2 : q.1 == k2
      · simp only [Bool.false_eq_true, if_false]
        exact ih
      · simp only [if_true]

/-- Updating the entry for a present key `k` in place makes `k` map to
the new entry. -/
theorem cacheGet_map_update_same (t : Cache) (k : String) (e : CacheEntry)
    (ht : t.any (fun q => q.1 == k) = true) :
    cacheGet (t.map (fun q => if q.1 == k then (k, e) else q)) k = some e := by
  induction t with
  | nil => simp at ht
  | cons q t ih =>
    rw [List.map_cons, cacheGet_cons]
    by_cases hq : q.1 = k
    · simp only [if_pos (beq_iff_eq.mpr hq), show (k == k) = true from beq_iff_eq.mpr rfl,
        if_true]
    · have hq' : (q.1 == k) = false := beq_eq_false_iff_ne.mpr hq
      have ht2 : t.any (fun q => q.1 == k) = true := by
        simpa [hq'] using ht
      simp only [hq', Bool.false_eq_true, if_false]
      exact ih ht2

/-- Appending a fresh entry does not change what any other key maps to. -/
theorem cacheGet_append_ne (t : Cache) (k : String) (e : CacheEntry)
    (k2 : String) (h : k2 ≠ k) :
    cacheGet (t ++ [(k, e)]) k2 = cacheGet t k2 := by
  have hk : (k == k2) = false := beq_eq_false_iff_ne.mpr (Ne.symm h)
  induction t with
  | nil =>
    rw [List.nil_append, cacheGet_cons]
    simp only [hk, Bool.false_eq_true, if_false]
  | cons q t ih =>
    rw [List.cons_append, cacheGet_cons, cacheGet_cons]
    cases hq : q.1 == k2
    · simp only [Bool.false_eq_true, if_false]
      exact ih
    · simp only [if_true]

/-- Appending an entry for a key that is absent makes that key map to the
new entry. -/
theorem cacheGet_append_same (t : Cache) (k : String) (e : CacheEntry)
    (ht : t.any (fun q => q.1 == k) = false) :
    cacheGet (t ++ [(k, e)]) k = some e := by
  induction t with
  | nil =>
    rw [List.nil_append, cacheGet_cons]
    simp only [show (k == k) = true from beq_iff_eq.mpr rfl, if_true]
  | cons q t ih =>
    simp only [List.any_cons, Bool.or_eq_false_iff] at ht
    rw [List.cons_append, cacheGet_cons]
    simp only [ht.1, Bool.false_eq_true, if_false]
    exact ih ht.2

/-- After a write, a read of the same key sees exactly the new entry. -/
theorem cacheGet_cacheSet_same (c : Cache) (k : String) (e : CacheEntry) :
    cacheGet (cacheSet c k e) k = some e := by
  unfold cacheSet
  cases hc : c.any (fun q => q.1 == k)
  · simp only [Bool.false_eq_true, if_false]
    exact cacheGet_append_same c k e hc
  · simp only [if_true]
    exact cacheGet_map_update_same c k e hc

/-- A write leaves every other key untouched. -/
theorem cacheGet_cacheSet_ne (c : Cache) (k : String) (e : CacheEntry)
    (k2 : String) (h : k2 ≠ k) :
    cacheGet (cacheSet c k e) k2 = cacheGet c k2 := by
  unfold cacheSet
  cases hc : c.any (fun q => q.1 == k)
  · simp only [Bool.false_eq_true, if_false]
    exact cacheGet_append_ne c k e k2 h
  · simp only [if_true]
    exact cacheGet_map_update_ne c k e k2 h

/-- C4: a cache read returns a stored result exactly when an entry exists
for the key and its age is strictly below the TTL of 3600000 ms (a stale
entry is a miss, and the read — being a pure lookup — leaves it in
place); a write stores the result with the current timestamp and
unconditionally replaces any prior entry for its key, leaving every
other key untouched. -/
theorem cache_ttl_semantics (c : Cache) (k : String) (now : ℤ) :
    (∀ r, readFresh c k now = some r ↔
        ∃ e, cacheGet c k = some e ∧ now - e.timestamp < 3600000 ∧ r = e.data)
    ∧ (∀ e, cacheGet (cacheSet c k e) k = some e)
    ∧ (∀ e k2, k2 ≠ k → cacheGet (cacheSet c k e) k2 = cacheGet c k2) := by
  have hCD : CACHE_DURATION = 3600000 := by norm_num [CACHE_DURATION]
  refine ⟨fun r => ?_, fun e => cacheGet_cacheSet_same c k e,
    fun e k2 h => cacheGet_cacheSet_ne c k e k2 h⟩
  constructor
  · intro h
    cases hg : cacheGet c k with
    | none => simp only [readFresh, hg] at h; cases h
    | some e =>
      simp only [readFresh, hg] at h
      by_cases hfresh : now - e.timestamp < CACHE_DURATION
      · rw [if_pos hfresh] at h
        cases h
        exact ⟨e, rfl, hCD ▸ hfresh, rfl⟩
      · rw [if_neg hfresh] at h
        cases h
  · rintro ⟨e, hg, hfresh, rfl⟩
    simp only [readFresh, hg]
    rw [if_pos (by rw [hCD]; exact hfresh)]

/-- Witness for C4 at a concrete cache: a fresh read hits, a stale read
misses while the entry stays present, and a write replaces the entry. -/
theorem cache_ttl_semantics_witness :
    (readFresh cW "https://example.com-mobile" 200 = some entryW.data
      ∧ cacheGet cW "https://example.com-mobile" = some entryW
      ∧ (200 : ℤ) - entryW.timestamp < 3600000)
    ∧ readFresh cW "https://example.com-mobile" 99999999 = none
    ∧ cacheGet cW "https://example.com-mobile" = some entryW
    ∧ cacheGet (cacheSet cW "https://example.com-mobile" ⟨5, .nullish⟩)
        "https://example.com-mobile" = some ⟨5, .nullish⟩ := by
  refine ⟨?_, by rfl, by rfl, ?_⟩
  · have h := (cache_ttl_semantics cW "https://example.com-mobile" 200).1 entryW.data
    exact ⟨h.mpr ⟨entryW, rfl, by decide, rfl⟩, rfl, by decide⟩
  · exact (cache_ttl_semantics cW "https://example.com-mobile" 99999999).2.1 ⟨5, .nullish⟩

/-- On a valid request whose key has a fresh cache entry, the handler
answers 200 with the cached data and changes nothing, for any gate
state. -/
theorem handler_hit (parseUrl : String → Option PUrl) (engine : ℕ → AttemptRes)
    (nowGet nowPut : ℤ) (req : Req) (c : Cache) (gate : Bool)
    (u : String) (pu : PUrl) (device : String) (d : LHVal)
    (hurl : req.url = some u) (hu : u ≠ "") (hp : parseUrl u = some pu)
    (hproto : pu.protocol = "http:" ∨ pu.protocol = "https:")
    (hdev : req.device.getD "mobile" = device)
    (hdevok : device = "mobile" ∨ device = "desktop")
    (hhit : readFresh c (u ++ "-" ++ device) nowGet = some d) :
    handler parseUrl engine nowGet nowPut req c gate =
      some ⟨200, .result d, c, gate, 0, false⟩ := by
  unfold handler
  rw [hurl]
  simp only [hp, hdev, if_neg hu, if_pos hproto, if_pos hdevok, hhit]

/-- On a valid request whose key has no fresh cache entry and a free
gate, the handler runs the retry-wrapped audit and answers according to
its outcome. -/
theorem handler_miss_run (parseUrl : String → Option PUrl) (engine : ℕ → AttemptRes)
    (nowGet nowPut : ℤ) (req : Req) (c : Cache)
    (u : String) (pu : PUrl) (device : String)
    (hurl : req.url = some u) (hu : u ≠ "") (hp : parseUrl u = some pu)
    (hproto : pu.protocol = "http:" ∨ pu.protocol = "https:")
    (hdev : req.device.getD "mobile" = device)
    (hdevok : device = "mobile" ∨ device = "desktop")
    (hmiss : readFresh c (u ++ "-" ++ device) nowGet = none) :
    handler parseUrl engine nowGet nowPut req c false =
      (match (runLighthouseWithRetry device engine 3).result with
       | .ok r => some ⟨200, .result r, cacheSet c (u ++ "-" ++ device) ⟨nowPut, r⟩,
           false, (runLighthouseWithRetry device engine 3).attempts, true⟩
       | .error e => some ⟨500, .failure "Audit Error"
           (if e = "" then "Failed to run audit" else e), c,
           false, (runLighthouseWithRetry device engine 3).attempts, true⟩) := by
  unfold handler
  rw [hurl]
  simp only [hp, hdev, if_neg hu, if_pos hproto, if_pos hdevok, hmiss,
    Bool.false_eq_true, if_false]

/-- Every terminating handler execution is of one of three shapes: an
early return that leaves cache and gate untouched without engine calls
(validation failure or cache hit), a successful audit that wrote the
cache and released the gate, or a failed audit that answered 500 with
the cache untouched and the gate released. -/
theorem handler_outcomes (parseUrl : String → Option PUrl) (engine : ℕ → AttemptRes)
    (nowGet nowPut : ℤ) (req : Req) (c : Cache) (gate : Bool) (hr : HResult)
    (h : handler parseUrl engine nowGet nowPut req c gate = some hr) :
    (hr.cache = c ∧ hr.isAuditRunning = gate ∧ hr.engineCalls = 0
      ∧ hr.acquiredGate = false ∧ (hr.status = 400 ∨ hr.status = 200))
    ∨ (∃ key r n, hr = ⟨200, .result r, cacheSet c key ⟨nowPut, r⟩, false, n, true⟩)
    ∨ (∃ msg n, hr = ⟨500, .failure "Audit Error" msg, c, false, n, true⟩) := by
  unfold handler at h
  dsimp only at h
  repeat' split at h
  all_goals first
    | (have h2 := (Option.some.inj h).symm
       first
        | exact Or.inr (Or.inl ⟨_, _, _, h2⟩)
        | exact Or.inr (Or.inr ⟨_, _, h2⟩)
        | exact Or.inl (by rw [h2]; simp))
    | exact Option.noConfusion h

/-- C9: a handler execution that acquired the gate always leaves the
`isAuditRunning` flag false when it finishes — whichever exit path it
took (200, 500, or the exception path inside the protected section) —
and an execution that never acquired the gate leaves the flag as it
found it. -/
theorem gate_released_on_exit (parseUrl : String → Option PUrl)
    (engine : ℕ → AttemptRes) (nowGet nowPut : ℤ) (req : Req) (c : Cache)
    (gate : Bool) (hr : HResult)
    (h : handler parseUrl engine nowGet nowPut req c gate = some hr) :
    (hr.acquiredGate = true → hr.isAuditRunning = false)
    ∧ (hr.acquiredGate = false → hr.isAuditRunning = gate) := by
  rcases handler_outcomes parseUrl engine nowGet nowPut req c gate hr h with
    ⟨hc, hg, he, hag, hst⟩ | ⟨key, r, n, rfl⟩ | ⟨msg, n, rfl⟩
  · exact ⟨fun ht => absurd ht (by simp [hag]), fun _ => hg⟩
  · exact ⟨fun _ => rfl, fun hf => by cases hf⟩
  · exact ⟨fun _ => rfl, fun hf => by cases hf⟩

/-- Witness for C9: a failing audit on a valid request acquires the gate
and the handler finishes with the flag false (and a 500 response). -/
theorem gate_released_witness :
    handler parseUrlW boomEngine 0 0 ⟨some "https://example.com", none⟩ [] false =
      some ⟨500, .failure "Audit Error" "mobile audit failed after 3 attempts: boom",
        [], false, 3, true⟩
    ∧ ((⟨500, .failure "Audit Error" "mobile audit failed after 3 attempts: boom",
        [], false, 3, true⟩ : HResult).acquiredGate = true →
       (⟨500, .failure "Audit Error" "mobile audit failed after 3 attempts: boom",
        [], false, 3, true⟩ : HResult).isAuditRunning = false) :=
  ⟨rfl, (gate_released_on_exit parseUrlW boomEngine 0 0
    ⟨some "https://example.com", none⟩ [] false _ rfl).1⟩

/-- C10: every 500 answer leaves the cache exactly as it was (and the
gate released); and on a valid request with a cache miss, a free gate
and an audit that fails after the retries are exhausted, the handler
answers 500 with the error text and does not write the cache. -/
theorem failure_leaves_cache (parseUrl : String → Option PUrl)
    (engine : ℕ → AttemptRes) (nowGet nowPut : ℤ) (req : Req) (c : Cache)
    (gate : Bool) :
    (∀ hr, handler parseUrl engine nowGet nowPut req c gate = some hr →
        hr.status = 500 → hr.cache = c ∧ hr.isAuditRunning = false)
    ∧ (∀ u pu device e, req.url = some u → u ≠ "" → parseUrl u = some pu →
        (pu.protocol = "http:" ∨ pu.protocol = "https:") →
        req.device.getD "mobile" = device →
        (device = "mobile" ∨ device = "desktop") →
        readFresh c (u ++ "-" ++ device) nowGet = none → gate = false →
        (runLighthouseWithRetry device engine 3).result = .error e →
        handler parseUrl engine nowGet nowPut req c gate =
          some ⟨500, .failure "Audit Error"
            (if e = "" then "Failed to run audit" else e), c, false,
            (runLighthouseWithRetry device engine 3).attempts, true⟩) := by
  constructor
  · intro hr h h500
    rcases handler_outcomes parseUrl engine nowGet nowPut req c gate hr h with
      ⟨hc, hg, he, hag, hst⟩ | ⟨key, r, n, rfl⟩ | ⟨msg, n, rfl⟩
    · rw [h500] at hst
      rcases hst with h4 | h2 <;> omega
    · cases h500
    · exact ⟨rfl, rfl⟩
  · intro u pu device e hurl hu hp hproto hdev hdevok hmiss hgate herr
    subst hgate
    rw [handler_miss_run parseUrl engine nowGet nowPut req c u pu device
      hurl hu hp hproto hdev hdevok hmiss]
    simp only [herr]

/-- Witness for C10: a stale entry is present for the key, the audit
fails, the handler answers 500, and the cache afterwards still holds
exactly the old entry. -/
theorem failure_leaves_cache_witness :
    (readFresh cW ("https://example.com" ++ "-" ++ "mobile") 99999999 = none
      ∧ (runLighthouseWithRetry "mobile" boomEngine 3).result =
          .error "mobile audit failed after 3 attempts: boom")
    ∧ handler parseUrlW boomEngine 99999999 99999999
        ⟨some "https://example.com", none⟩ cW false =
        some ⟨500, .failure "Audit Error" "mobile audit failed after 3 attempts: boom",
          cW, false, 3, true⟩
    ∧ cacheGet cW ("https://example.com" ++ "-" ++ "mobile") = some entryW := by
  refine ⟨⟨rfl, rfl⟩, ?_, rfl⟩
  exact (failure_leaves_cache parseUrlW boomEngine 99999999 99999999
    ⟨some "https://example.com", none⟩ cW false).2
    "https://example.com" ⟨"https:", "https://example.com/"⟩ "mobile"
    "mobile audit failed after 3 attempts: boom"
    rfl (by decide) rfl (Or.inr rfl) rfl (Or.inl rfl) rfl rfl rfl

/-- C5: on a valid request whose key holds a cache entry younger than the
TTL, the handler answers 200 with exactly the cached result, performs no
engine invocation and no gate acquisition, and leaves the cache and the
gate flag unchanged (whatever the gate state); conversely, when the TTL
has elapsed for the entry and the gate is free, the handler performs at
least one engine invocation after acquiring the gate. -/
theorem cache_hit_and_expiry (parseUrl : String → Option PUrl)
    (engine : ℕ → AttemptRes) (nowGet nowPut : ℤ) (req : Req) (c : Cache)
    (gate : Bool) (u : String) (pu : PUrl) (device : String) (entry : CacheEntry)
    (hurl : req.url = some u) (hu : u ≠ "") (hp : parseUrl u = some pu)
    (hproto : pu.protocol = "http:" ∨ pu.protocol = "https:")
    (hdev : req.device.getD "mobile" = device)
    (hdevok : device = "mobile" ∨ device = "desktop")
    (hent : cacheGet c (u ++ "-" ++ device) = some entry) :
    (nowGet - entry.timestamp < CACHE_DURATION →
        handler parseUrl engine nowGet nowPut req c gate =
          some ⟨200, .result entry.data, c, gate, 0, false⟩)
    ∧ (CACHE_DURATION ≤ nowGet - entry.timestamp → gate = false →
        ∃ hr, handler parseUrl engine nowGet nowPut req c gate = some hr ∧
          1 ≤ hr.engineCalls ∧ hr.acquiredGate = true) := by
  constructor
  · intro hfresh
    refine handler_hit parseUrl engine nowGet nowPut req c gate u pu device
      entry.data hurl hu hp hproto hdev hdevok ?_
    simp only [readFresh, hent]
    rw [if_pos hfresh]
  · intro hstale hgate
    subst hgate
    have hmiss : readFresh c (u ++ "-" ++ device) nowGet = none := by
      simp only [readFresh, hent]
      rw [if_neg (not_lt.mpr hstale)]
    have hrun := handler_miss_run parseUrl engine nowGet nowPut req c u pu device
      hurl hu hp hproto hdev hdevok hmiss
    have hpos : 1 ≤ (runLighthouseWithRetry device engine 3).attempts :=
      retryGo_attempts_pos device engine 3 3 "" (by omega) (by omega)
    cases hres : (runLighthouseWithRetry device engine 3).result with
    | ok r =>
      refine ⟨⟨200, .result r, cacheSet c (u ++ "-" ++ device) ⟨nowPut, r⟩,
        false, (runLighthouseWithRetry device engine 3).attempts, true⟩, ?_, hpos, rfl⟩
      rw [hrun]
      simp only [hres]
    | error e =>
      refine ⟨⟨500, .failure "Audit Error"
        (if e = "" then "Failed to run audit" else e), c,
        false, (runLighthouseWithRetry device engine 3).attempts, true⟩, ?_, hpos, rfl⟩
      rw [hrun]
      simp only [hres]

/-- Witness for C5: a fresh entry written at time 100 and read at time
200 answers 200 from the cache with zero engine calls; at time 99999999
the same entry is stale and the handler performs engine attempts after
acquiring the gate. -/
theorem cache_hit_and_expiry_witness :
    (cacheGet cW ("https://example.com" ++ "-" ++ "mobile") = some entryW
      ∧ (200 : ℤ) - entryW.timestamp < CACHE_DURATION
      ∧ CACHE_DURATION ≤ (99999999 : ℤ) - entryW.timestamp)
    ∧ handler parseUrlW okEngine 200 300 ⟨some "https://example.com", none⟩ cW true =
        some ⟨200, .result entryW.data, cW, true, 0, false⟩
    ∧ (∃ hr, handler parseUrlW okEngine 99999999 99999999
        ⟨some "https://example.com", none⟩ cW false = some hr ∧
        1 ≤ hr.engineCalls ∧ hr.acquiredGate = true) := by
  refine ⟨⟨rfl, by decide, by decide⟩, ?_, ?_⟩
  · exact (cache_hit_and_expiry parseUrlW okEngine 200 300
      ⟨some "https://example.com", none⟩ cW true "https://example.com"
      ⟨"https:", "https://example.com/"⟩ "mobile" entryW
      rfl (by decide) rfl (Or.inr rfl) rfl (Or.inl rfl) rfl).1 (by decide)
  · exact (cache_hit_and_expiry parseUrlW okEngine 99999999 99999999
      ⟨some "https://example.com", none⟩ cW false "https://example.com"
      ⟨"https:", "https://example.com/"⟩ "mobile" entryW
      rfl (by decide) rfl (Or.inr rfl) rfl (Or.inl rfl) rfl).2 (by decide) rfl

/-- C6: whenever the url field is missing (or empty, which JavaScript
treats as missing since the empty string is falsy), the url fails to
parse, the parsed scheme is neither http nor https, or the effective
device is not mobile or desktop, the handler answers 400 with an
error/message body, performs no engine invocation and no gate
acquisition, and does so identically for every cache and gate state —
the validation runs before the cache lookup and the gate. -/
theorem validation_rejected_before_audit (parseUrl : String → Option PUrl)
    (engine : ℕ → AttemptRes) (nowGet nowPut : ℤ) (req : Req)
    (h : req.url = none ∨ req.url = some "" ∨
        (∃ u, req.url = some u ∧ parseUrl u = none) ∨
        (∃ u pu, req.url = some u ∧ u ≠ "" ∧ parseUrl u = some pu ∧
          pu.protocol ≠ "http:" ∧ pu.protocol ≠ "https:") ∨
        (req.device.getD "mobile" ≠ "mobile" ∧ req.device.getD "mobile" ≠ "desktop")) :
    ∃ er msg, ∀ (c : Cache) (gate : Bool),
      handler parseUrl engine nowGet nowPut req c gate =
        some ⟨400, .failure er msg, c, gate, 0, false⟩ := by
  rcases h with h0 | h0 | ⟨u, hu, hpu⟩ | ⟨u, pu, hu2, hne2, hpu2, hp1, hp2⟩ | ⟨hd1, hd2⟩
  · exact ⟨"Validation Error", "URL is required",
      fun c gate => by simp [handler, h0]⟩
  · exact ⟨"Validation Error", "URL is required",
      fun c gate => by simp [handler, h0]⟩
  · by_cases h0 : u = ""
    · subst h0
      exact ⟨"Validation Error", "URL is required",
        fun c gate => by simp [handler, hu]⟩
    · exact ⟨"Validation Error",
        "Invalid URL format. Please include http:// or https://",
        fun c gate => by simp [handler, hu, hpu, h0]⟩
  · have hnp : ¬(pu.protocol = "http:" ∨ pu.protocol = "https:") := by tauto
    exact ⟨"Validation Error",
      "Invalid URL format. Please include http:// or https://",
      fun c gate => by simp [handler, hu2, hne2, hpu2, hnp]⟩
  · have hnd : ¬(req.device.getD "mobile" = "mobile"
        ∨ req.device.getD "mobile" = "desktop") := by tauto
    rcases hurl : req.url with _ | u
    · exact ⟨"Validation Error", "URL is required",
        fun c gate => by simp [handler, hurl]⟩
    · by_cases h0 : u = ""
      · subst h0
        exact ⟨"Validation Error", "URL is required",
          fun c gate => by simp [handler, hurl]⟩
      · rcases hpu : parseUrl u with _ | pu
        · exact ⟨"Validation Error",
            "Invalid URL format. Please include http:// or https://",
            fun c gate => by simp [handler, hurl, h0, hpu]⟩
        · by_cases hpr : pu.protocol = "http:" ∨ pu.protocol = "https:"
          · exact ⟨"Validation Error", "Device must be either mobile or desktop",
              fun c gate => by simp [handler, hurl, h0, hpu, hpr, hnd]⟩
          · exact ⟨"Validation Error",
              "Invalid URL format. Please include http:// or https://",
              fun c gate => by simp [handler, hurl, h0, hpu, hpr]⟩

/-- Witness for C6: the unparsable url "not-a-url" (with device
"tablet") is rejected with a 400 for every cache and gate state, with no
engine call. -/
theorem validation_rejected_witness :
    (∃ u, (⟨some "not-a-url", some "tablet"⟩ : Req).url = some u ∧ parseUrlW u = none)
    ∧ (∃ er msg, ∀ (c : Cache) (gate : Bool),
        handler parseUrlW boomEngine 0 0 ⟨some "not-a-url", some "tablet"⟩ c gate =
          some ⟨400, .failure er msg, c, gate, 0, false⟩) :=
  ⟨⟨"not-a-url", rfl, rfl⟩,
    validation_rejected_before_audit parseUrlW boomEngine 0 0
      ⟨some "not-a-url", some "tablet"⟩
      (Or.inr (Or.inr (Or.inl ⟨"not-a-url", rfl, rfl⟩)))⟩
